import Mathlib

/-!
Verification of the WarpDrive `FullyConnected` policy/value network
(`warp_drive/training/models/fully_connected.py`) against its
natural-language specification.

The Python module is shallowly embedded here:
* tensors from the GPU data store are flat row-major buffers
  (`Tensor`: a shape together with flat data);
* batches fed through the trunk are rank-3 nested lists
  (`Batch3`: environments x agents x features);
* floating-point values are modelled as elements of a linear ordered
  field (instantiated at `ℚ` for the computable structural facts and at
  `ℝ` where `softmax` is involved);
* exceptions (`NotImplementedError`, `ValueError`, failed `assert`s)
  become `Except String`.
-/

namespace WarpDrive

/-- Modelled from the spec: `warp_drive.utils.constants.Constants.OBSERVATIONS`
(the constants module is not part of the sources); the spec states the
data-manager keys are formed from `observations`. -/
def OBSERVATIONS : String := "observations"

/-- Modelled from the spec: `warp_drive.utils.constants.Constants.ACTION_MASK`,
the reserved action-mask entry name of a dict observation space. -/
def ACTION_MASK : String := "action_mask"

/-- Observation/action space descriptors (`gym.spaces`): the source
dispatches on `Box`, `Dict`, `Discrete` and `MultiDiscrete`; any other
space kind falls into the `NotImplementedError` branches, represented by
`other`. A `Box` is kept as its shape; a `Dict` as its (key, shape)
entries in iteration order. -/
inductive SpaceDesc where
  | box (shape : List ℕ)
  | dict (entries : List (String × List ℕ))
  | discrete (n : ℕ)
  | multiDiscrete (nvec : List ℕ)
  | other
deriving DecidableEq

/-- Whether a space descriptor is a `Box` or a `Dict` (the two kinds the
observation-space code accepts). -/
def SpaceDesc.isBoxOrDict : SpaceDesc → Bool
  | .box _ => true
  | .dict _ => true
  | _ => false

/-- Whether a space descriptor is `Discrete` or `MultiDiscrete` (the two
kinds the action-space code accepts). -/
def SpaceDesc.isDiscreteLike : SpaceDesc → Bool
  | .discrete _ => true
  | .multiDiscrete _ => true
  | _ => false

section TensorModel

variable {α : Type} [LinearOrderedField α]

/-- A device tensor: its shape and its flat data in row-major order. -/
structure Tensor (α : Type) where
  shape : List ℕ
  data : List α
deriving DecidableEq

/-- A rank-3 batch (environments x agents x features), the form every
observation takes after `reshape_and_flatten_obs`. -/
abbrev Batch3 (α : Type) : Type := List (List (List α))

/-- Row-major mixed-radix decomposition: the multi-index of flat
position `k` in a tensor of the given shape. -/
def mixedUnrank : List ℕ → ℕ → List ℕ
  | [], _ => []
  | _ :: rest, k => (k / rest.prod) :: mixedUnrank rest (k % rest.prod)

/-- Row-major flat position of a multi-index in a tensor of the given
shape. -/
def mixedRank : List ℕ → List ℕ → ℕ
  | [], _ => 0
  | _ :: _, [] => 0
  | _ :: rest, i :: is => i * rest.prod + mixedRank rest is

/-- `torch.Tensor.permute` followed by the copy a later `reshape` makes:
the result's flat data enumerates the input in row-major order of the
permuted axes (`perm.get i` is the source axis that becomes axis `i`). -/
def Tensor.permute (t : Tensor α) (perm : List ℕ) : Tensor α :=
  let newShape := perm.map (fun p => t.shape.getD p 0)
  let r := t.shape.length
  ⟨newShape,
   (List.range newShape.prod).map (fun k =>
     let mNew := mixedUnrank newShape k
     let mOld := (List.range r).map (fun j => mNew.getD (perm.indexOf j) 0)
     t.data.getD (mixedRank t.shape mOld) 0)⟩

/-- `obs.reshape(-1, num_agents)`: the inferred leading dimension is the
element count divided by `num_agents`. -/
def Tensor.reshapeRows (t : Tensor α) (numAgents : ℕ) : Tensor α :=
  ⟨[t.data.length / numAgents, numAgents], t.data⟩

/-- `obs.reshape(num_envs, num_agents, -1)`: the inferred trailing
dimension is the element count divided by `num_envs * num_agents`. -/
def Tensor.reshape3 (t : Tensor α) (numEnvs numAgents : ℕ) : Tensor α :=
  ⟨[numEnvs, numAgents, t.data.length / (numEnvs * numAgents)], t.data⟩

/-- The rank-3 row-major view of a tensor whose shape is
`[E, A, F]` as a nested batch (bridges the flat buffer model to the
nested batch model fed to the network layers). -/
def Tensor.toBatch3 (t : Tensor α) : Batch3 α :=
  let e := t.shape.getD 0 0
  let a := t.shape.getD 1 0
  let f := t.shape.getD 2 0
  (List.range e).map (fun i =>
    (List.range a).map (fun j =>
      (List.range f).map (fun k => t.data.getD ((i * a + j) * f + k) 0)))

end TensorModel

section MaskAndSoftmax

variable {α : Type} [LinearOrderedField α]

/-- The module-level `apply_logit_mask(logits, mask=None)`: mask values
of 1 are valid actions; huge negative values are added to logits with 0
mask values (`logit_mask = ones_like(logits) * -10000000;
logit_mask = logit_mask * (1 - mask); return logits + logit_mask`). -/
def applyLogitMask (logits : List α) (mask : Option (List α) := none) : List α :=
  match mask with
  | none => logits
  | some m =>
    let logit_mask := (logits.map (fun _ => (1 : α))).map (fun v => v * (-10000000))
    let logit_mask := (logit_mask.zip m).map (fun p => p.1 * (1 - p.2))
    (logits.zip logit_mask).map (fun p => p.1 + p.2)

end MaskAndSoftmax

/-- `torch.nn.functional.softmax(x, dim=-1)` on one row of the last
axis: exact real softmax. -/
noncomputable def softmaxF (x : List ℝ) : List ℝ :=
  x.map (fun v => Real.exp v / (x.map Real.exp).sum)

section Network

variable {α : Type} [LinearOrderedField α]

/-- An `nn.Linear(in_features, out_features)` layer: `weight` is
out x in, `bias` has one entry per output feature. -/
structure Linear (α : Type) where
  weight : List (List α)
  bias : List α

/-- Dot product of a weight row with an input row. -/
def dotProd (w x : List α) : α := ((w.zip x).map (fun p => p.1 * p.2)).sum

/-- Application of a linear layer to one feature row. -/
def Linear.apply (L : Linear α) (x : List α) : List α :=
  (L.weight.zip L.bias).map (fun wb => dotProd wb.1 x + wb.2)

/-- `nn.ReLU()` on one scalar. -/
def relu (x : α) : α := max x 0

/-- Application of a row operation across a rank-3 batch (every torch op
in the forward pass acts along the last axis). -/
def mapRows (f : List α → List α) (b : Batch3 α) : Batch3 α :=
  b.map (fun env => env.map f)

/-- The environment handle the network keeps (`self.env`): per-agent
observation and action space descriptors, the agent count, and the
CUDA data manager, modelled as a total lookup from buffer names to
device tensors (`data_on_device_via_torch`). -/
structure EnvDesc (α : Type) where
  observationSpace : ℕ → SpaceDesc
  actionSpace : ℕ → SpaceDesc
  nAgents : ℕ
  dataManager : String → Tensor α

/-- The state of a `FullyConnected` instance: the constructor arguments
it stores plus the layer parameters and the mutable `action_mask`
slot. -/
structure FCState (α : Type) where
  env : EnvDesc α
  policy : String
  policyTagToAgentIdMap : String → List ℕ
  createSeparatePlaceholdersForEachPolicy : Bool
  obsDimCorrespondingToNumAgents : String
  fastForwardMode : Bool
  observationSpace : SpaceDesc
  fc : List (Linear α)
  policyHead : List (Linear α)
  vfHead : Linear α
  actionMask : Option (Batch3 α)

/-- `FullyConnected.get_flattened_obs_size`, as a function of the stored
observation space: product of the shape for `Box`; sum of shape products
over all non-`action_mask` keys for `Dict`; `NotImplementedError`
otherwise. -/
def getFlattenedObsSize (sp : SpaceDesc) : Except String ℕ :=
  match sp with
  | .box shape => .ok shape.prod
  | .dict entries =>
    .ok (entries.foldl
      (fun acc e => if e.1 = ACTION_MASK then acc else acc + e.2.prod) 0)
  | _ => .error "Observation space must be of Box or Dict type"

/-- `FullyConnected.reshape_and_flatten_obs`: normalizes an observation
buffer to `[num_envs, num_agents, -1]`.  When the agent dimension is
configured `"last"`, a rank-1 buffer is first reshaped to
`(-1, num_agents)` and then the last axis is permuted to the second
position (`obs.permute(0, -1, *range(1, shape_len - 1))`, where `-1`
resolves against the tensor's current rank); an unrecognized
configuration string raises `ValueError`. -/
def FCState.reshapeAndFlattenObs (s : FCState α) (obs : Tensor α) :
    Except String (Tensor α) := do
  let num_envs := obs.shape.getD 0 0
  let num_agents := if s.createSeparatePlaceholdersForEachPolicy then
      (s.policyTagToAgentIdMap s.policy).length
    else
      s.env.nAgents
  let obs2 ←
    if s.obsDimCorrespondingToNumAgents = "first" then
      pure obs
    else if s.obsDimCorrespondingToNumAgents = "last" then
      let shape_len := obs.shape.length
      let obs1 := if shape_len = 1 then obs.reshapeRows num_agents else obs
      pure (obs1.permute ([0, obs1.shape.length - 1] ++ List.range' 1 (shape_len - 2)))
    else
      .error "num_agents can only be the first or last dimension in the observations."
  pure (obs2.reshape3 num_envs num_agents)

/-- Concatenation of rank-3 batches along the feature (last) axis
(`torch.cat(..., dim=-1)` over the flattened dict entries). -/
def concatLastDim : List (Batch3 α) → Batch3 α
  | [] => []
  | x :: xs => xs.foldl (fun a b => List.zipWith (fun ea eb => List.zipWith (· ++ ·) ea eb) a b) x

/-- The data-manager key used for a dict observation entry
(`observations_<key>`, or `observations_<policy>_<key>` in
separate-placeholder mode). -/
def FCState.dictKey (s : FCState α) (key : String) : String :=
  if s.createSeparatePlaceholdersForEachPolicy then
    OBSERVATIONS ++ "_" ++ s.policy ++ "_" ++ key
  else
    OBSERVATIONS ++ "_" ++ key

/-- One iteration of the first loop of `get_flattened_obs` over a dict
space's keys: the accumulator carries the `obs_dict` built so far and
the (possibly re-assigned) `self.action_mask`; the `action_mask` entry
is reshaped and stored, every other entry is appended to `obs_dict`. -/
def gfoStep (s : FCState α)
    (acc : List (String × Tensor α) × Option (Batch3 α))
    (e : String × List ℕ) :
    Except String (List (String × Tensor α) × Option (Batch3 α)) := do
  let obs := s.env.dataManager (s.dictKey e.1)
  if e.1 = ACTION_MASK then do
    let m ← s.reshapeAndFlattenObs obs
    pure (acc.1, some m.toBatch3)
  else
    pure (acc.1 ++ [(e.1, obs)], acc.2)

/-- `FullyConnected.get_flattened_obs`: retrieves the observation
buffers from the data manager and flattens them; for a dict space the
first loop separates the `action_mask` entry (stored, reshaped, on the
instance) from the feature entries, and the second loop flattens the
feature entries and concatenates them along the last axis.  Returns the
flattened batch together with the updated instance state. -/
def FCState.getFlattenedObs (s : FCState α) :
    Except String (Batch3 α × FCState α) :=
  match s.observationSpace with
  | .box _ => do
    let obs := if s.createSeparatePlaceholdersForEachPolicy then
        s.env.dataManager (OBSERVATIONS ++ "_" ++ s.policy)
      else
        s.env.dataManager OBSERVATIONS
    let flattened ← s.reshapeAndFlattenObs obs
    pure (flattened.toBatch3, s)
  | .dict entries => do
    let od ← entries.foldlM (gfoStep s) ([], s.actionMask)
    let flattenedList ← od.1.mapM
      (fun e => (s.reshapeAndFlattenObs e.2).map Tensor.toBatch3)
    pure (concatLastDim flattenedList, { s with actionMask := od.2 })
  | _ => .error "Observation space must be of Box or Dict type"

/-- `FullyConnected.set_fast_forward_mode` (its `print` is pure
side-effect and not modelled). -/
def FCState.setFastForwardMode (s : FCState α) : FCState α :=
  { s with fastForwardMode := true }

/-- Selection of the feature rows of this policy's agents:
`obs[:, agent_ids_for_policy]`. -/
def selectAgents (obs : Batch3 α) (ids : List ℕ) : Batch3 α :=
  obs.map (fun env => ids.map (fun i => env.getD i []))

/-- The `ip` computation at the top of `FullyConnected.forward`: when no
observation tensor is passed, assemble it from the data manager and, if
placeholders are shared across policies and fast-forward mode is off,
keep only the rows of this policy's agents; a passed observation tensor
is fed through unchanged. -/
def FCState.forwardInput (s : FCState α) (obs? : Option (Batch3 α)) :
    Except String (Batch3 α × FCState α) :=
  match obs? with
  | none => do
    let p ← s.getFlattenedObs
    let obs := p.1
    let s1 := p.2
    if s1.fastForwardMode = false ∧
        s1.createSeparatePlaceholdersForEachPolicy = false then
      let agent_ids := s1.policyTagToAgentIdMap s1.policy
      pure (selectAgents obs agent_ids, s1)
    else
      pure (obs, s1)
  | some o => pure (o, s)

/-- One trunk layer: `nn.Sequential(nn.Linear(...), nn.ReLU())` applied
along the last axis. -/
def fcLayer (L : Linear α) (x : List α) : List α :=
  (L.apply x).map relu

/-- Application of one policy head followed by `apply_logit_mask` with
the instance's stored mask, across the batch (the mask, when present,
supplies the row matching each (environment, agent) position). -/
def applyHeadMasked (mask : Option (Batch3 α)) (ph : Linear α) (op : Batch3 α) :
    Batch3 α :=
  match mask with
  | none => op.map (fun env => env.map (fun row => applyLogitMask (ph.apply row) none))
  | some m =>
    List.zipWith
      (fun env menv => List.zipWith
        (fun row mrow => applyLogitMask (ph.apply row) (some mrow)) env menv)
      op m

/-- `FullyConnected.forward` up to (but not including) the final
softmax: the trunk layers in index order, then per action head the
masked logits, and the value head output with its trailing singleton
dimension removed (`vals[..., 0]`).  Returns the per-head masked logits,
the values, and the post-call instance state. -/
def FCState.forwardMaskedLogits (s : FCState α) (obs? : Option (Batch3 α)) :
    Except String ((List (Batch3 α) × List (List α)) × FCState α) := do
  let p ← s.forwardInput obs?
  let ip := p.1
  let s1 := p.2
  let op := s1.fc.foldl (fun x L => mapRows (fcLayer L) x) ip
  let maskedLogits := s1.policyHead.map (fun ph => applyHeadMasked s1.actionMask ph op)
  let vf_out := op.map (fun env => env.map (fun row => s1.vfHead.apply row))
  let vals := vf_out.map (fun env => env.map (fun row => row.getD 0 0))
  pure ((maskedLogits, vals), s1)

/-- `FullyConnected.__init__`: checks the agent-dimension configuration
(`assert obs_dim_corresponding_to_num_agents in ["first", "last"]`),
resolves the sample agent's observation space and its flattened size
(which can raise for unsupported space kinds), resolves the action-space
cardinalities (raising `NotImplementedError` for anything that is
neither `Discrete` nor `MultiDiscrete`), and builds the trunk, policy
heads and value head.  Torch's random weight initialization is injected
as `mkLinear in_features out_features`. -/
def initFC (env : EnvDesc α) (fc_dims : List ℕ) (policy : String)
    (policy_tag_to_agent_id_map : String → List ℕ)
    (create_separate_placeholders_for_each_policy : Bool)
    (obs_dim_corresponding_to_num_agents : String)
    (mkLinear : ℕ → ℕ → Linear α) : Except String (FCState α) := do
  let num_fc_layers := fc_dims.length
  if (obs_dim_corresponding_to_num_agents = "first" ∨
      obs_dim_corresponding_to_num_agents = "last") then
    let sample_agent_id := (policy_tag_to_agent_id_map policy).getD 0 0
    let observation_space := env.observationSpace sample_agent_id
    let flattened_obs_size ← getFlattenedObsSize observation_space
    let action_space ←
      match env.actionSpace sample_agent_id with
      | .discrete n => pure [n]
      | .multiDiscrete nvec => pure nvec
      | _ => .error "NotImplementedError"
    let input_dims := [flattened_obs_size] ++ fc_dims.dropLast
    let output_dims := fc_dims
    let fc := (List.range num_fc_layers).map
      (fun i => mkLinear (input_dims.getD i 0) (output_dims.getD i 0))
    let policy_head := action_space.map (fun n => mkLinear (fc_dims.getLastD 0) n)
    let vf_head := mkLinear (fc_dims.getLastD 0) 1
    pure
      { env := env
        policy := policy
        policyTagToAgentIdMap := policy_tag_to_agent_id_map
        createSeparatePlaceholdersForEachPolicy :=
          create_separate_placeholders_for_each_policy
        obsDimCorrespondingToNumAgents := obs_dim_corresponding_to_num_agents
        fastForwardMode := false
        observationSpace := observation_space
        fc := fc
        policyHead := policy_head
        vfHead := vf_head
        actionMask := none }
  else
    .error "AssertionError"

end Network

/-- `FullyConnected.forward` in full: the masked logits of every policy
head go through `F.softmax(..., dim=-1)`; the values pass through. -/
noncomputable def FCState.forward (s : FCState ℝ) (obs? : Option (Batch3 ℝ)) :
    Except String ((List (Batch3 ℝ) × List (List ℝ)) × FCState ℝ) :=
  (s.forwardMaskedLogits obs?).map
    (fun r => ((r.1.1.map (fun b => mapRows softmaxF b), r.1.2), r.2))

/-- Whether an embedded computation succeeded (no exception raised). -/
def isOkE {ε β : Type} : Except ε β → Bool
  | .ok _ => true
  | .error _ => false

/-! ### Helper lemmas -/

section Helpers

variable {α : Type} [LinearOrderedField α]

/-- Closed form of the masked branch of `apply_logit_mask`: pointwise
`logits + (-1e7) * (1 - mask)`. -/
theorem applyLogitMask_some (l m : List α) :
    applyLogitMask l (some m) =
      (l.zip m).map (fun p => p.1 + (-10000000) * (1 - p.2)) := by
  induction l generalizing m with
  | nil => simp [applyLogitMask]
  | cons a t ih =>
    cases m with
    | nil => simp [applyLogitMask]
    | cons b mt =>
      have h := ih mt
      simp only [applyLogitMask, List.map_cons, List.zip_cons_cons, one_mul] at h ⊢
      exact List.cons_eq_cons.mpr ⟨rfl, h⟩

theorem applyLogitMask_none (l : List α) : applyLogitMask l none = l := rfl

/-- Pointwise value of the masked logits. -/
theorem applyLogitMask_getD (l m : List α) (i : ℕ)
    (hil : i < l.length) (him : i < m.length) :
    (applyLogitMask l (some m)).getD i 0 =
      l.getD i 0 + (-10000000) * (1 - m.getD i 0) := by
  rw [applyLogitMask_some]
  have hz : i < (l.zip m).length := by
    simpa [List.length_zip] using ⟨hil, him⟩
  have hmap : i < ((l.zip m).map (fun p => p.1 + (-10000000) * (1 - p.2))).length := by
    simpa using hz
  rw [List.getD_eq_getElem _ _ hmap, List.getElem_map,
    List.getD_eq_getElem _ _ hil, List.getD_eq_getElem _ _ him]
  simp [List.getElem_zip]

/-- Zipping a list with a same-length constant list pairs every entry
with the constant. -/
theorem zip_replicate_self {γ β : Type} (l : List γ) (c : β) :
    l.zip (List.replicate l.length c) = l.map (fun a => (a, c)) := by
  induction l with
  | nil => rfl
  | cons a t ih => simp [List.replicate_succ, ih]

/-- Masking with an all-zero mask adds the constant `-1e7` to every
logit. -/
theorem applyLogitMask_zero_mask (l : List α) :
    applyLogitMask l (some (List.replicate l.length 0)) =
      l.map (fun v => v + (-10000000)) := by
  rw [applyLogitMask_some, zip_replicate_self, List.map_map]
  simp

end Helpers

/-- Softmax is invariant under adding one constant to every logit. -/
theorem softmaxF_shift (l : List ℝ) (c : ℝ) :
    softmaxF (l.map (fun v => v + c)) = softmaxF l := by
  unfold softmaxF
  have hden : ((l.map (fun v => v + c)).map Real.exp).sum =
      Real.exp c * (l.map Real.exp).sum := by
    rw [List.map_map]
    have hfun : (Real.exp ∘ fun v => v + c) = fun v => Real.exp c * Real.exp v := by
      funext v
      simp [Function.comp, Real.exp_add, mul_comm]
    rw [hfun, List.sum_map_mul_left]
  rw [List.map_map, hden]
  apply List.map_congr_left
  intro a _
  simp only [Function.comp]
  rw [Real.exp_add, mul_comm (Real.exp a) (Real.exp c),
    mul_div_mul_left _ _ (Real.exp_ne_zero c)]

/-! ### C1 -/

/-- C1 counterexample: with logits `[0, 0]` and an all-zero mask, the
first post-softmax entry is `1/2`, which is not below any small
epsilon (here `10⁻⁶`): an all-zero mask does not suppress the
post-softmax probabilities. -/
theorem C1_counterexample :
    (softmaxF (applyLogitMask ([0, 0] : List ℝ) (some [0, 0]))).getD 0 0 = 1 / 2 ∧
    ¬ ((1 : ℝ) / 2 ≤ 1 / 1000000) := by
  constructor
  · have h : applyLogitMask ([0, 0] : List ℝ) (some [0, 0]) =
        [-10000000, -10000000] := by
      rw [applyLogitMask_some]
      norm_num
    rw [h]
    unfold softmaxF
    have he : (0 : ℝ) < Real.exp (-10000000) := Real.exp_pos _
    simp only [List.map_cons, List.map_nil, List.sum_cons, List.sum_nil,
      List.getD_cons_zero]
    rw [div_eq_div_iff (by linarith) (by norm_num)]
    ring
  · norm_num

/-- C1 (amended): with an all-zero mask, `apply_logit_mask` shifts every
logit by the same constant `-1e7`, and softmax is shift-invariant, so
the post-softmax probabilities are exactly those of the unmasked logits
(in particular they still sum to 1 and are not suppressed below a small
epsilon). -/
theorem C1_amended_zero_mask_softmax_unchanged (logits : List ℝ) :
    softmaxF (applyLogitMask logits (some (List.replicate logits.length 0))) =
      softmaxF logits := by
  rw [applyLogitMask_zero_mask, softmaxF_shift]

/-! ### C3 -/

/-- C3: `apply_logit_mask(logits, None)` returns the logits unchanged;
with a same-length mask the result has the logits' length and equals
`logits + (-1e7) * (1 - mask)` pointwise, so every position where the
mask is 1 is left exactly unchanged. -/
theorem C3_apply_logit_mask (logits mask : List ℚ) (i : ℕ)
    (hlen : mask.length = logits.length) (hi : i < logits.length) :
    applyLogitMask logits none = logits ∧
    (applyLogitMask logits (some mask)).length = logits.length ∧
    (applyLogitMask logits (some mask)).getD i 0 =
      logits.getD i 0 + (-10000000) * (1 - mask.getD i 0) ∧
    (mask.getD i 0 = 1 →
      (applyLogitMask logits (some mask)).getD i 0 = logits.getD i 0) := by
  have him : i < mask.length := by omega
  have hpt := applyLogitMask_getD logits mask i hi him
  refine ⟨rfl, ?_, hpt, ?_⟩
  · rw [applyLogitMask_some]
    simp [List.length_zip, hlen]
  · intro h1
    rw [hpt, h1]
    ring

/-- C3 witness: the theorem applied at logits `[2, 5]`, mask `[1, 0]`,
index 0 (a masked-in position). -/
theorem C3_apply_logit_mask_witness :
    (([(1 : ℚ), 0]).length = ([(2 : ℚ), 5]).length ∧ 0 < ([(2 : ℚ), 5]).length) ∧
    (applyLogitMask ([(2 : ℚ), 5]) none = [(2 : ℚ), 5] ∧
     (applyLogitMask ([(2 : ℚ), 5]) (some [1, 0])).length = ([(2 : ℚ), 5]).length ∧
     (applyLogitMask ([(2 : ℚ), 5]) (some [1, 0])).getD 0 0 =
       ([(2 : ℚ), 5]).getD 0 0 + (-10000000) * (1 - ([(1 : ℚ), 0]).getD 0 0) ∧
     (([(1 : ℚ), 0]).getD 0 0 = 1 →
       (applyLogitMask ([(2 : ℚ), 5]) (some [1, 0])).getD 0 0 =
         ([(2 : ℚ), 5]).getD 0 0)) :=
  ⟨⟨by decide, by decide⟩,
   C3_apply_logit_mask [2, 5] [1, 0] 0 (by decide) (by decide)⟩

/-! ### C5 -/

/-- C5: `get_flattened_obs_size` is the product of the shape dimensions
for a `Box` space and, for a `Dict` space, the sum over all non
`action_mask` keys of the product of that entry's shape dimensions (the
action-mask entry contributes nothing); it is a function of the space
descriptor only, so it does not depend on any batch size. -/
theorem C5_get_flattened_obs_size (shape : List ℕ)
    (entries : List (String × List ℕ)) :
    getFlattenedObsSize (.box shape) = .ok shape.prod ∧
    getFlattenedObsSize (.dict entries) =
      .ok (((entries.filter (fun e => e.1 ≠ ACTION_MASK)).map
        (fun e => e.2.prod)).sum) := by
  refine ⟨rfl, ?_⟩
  unfold getFlattenedObsSize
  have key : ∀ (acc : ℕ),
      entries.foldl (fun acc e => if e.1 = ACTION_MASK then acc else acc + e.2.prod) acc =
        acc + ((entries.filter (fun e => e.1 ≠ ACTION_MASK)).map (fun e => e.2.prod)).sum := by
    induction entries with
    | nil => intro acc; simp
    | cons e t ih =>
      intro acc
      by_cases h : e.1 = ACTION_MASK
      · simp [List.foldl_cons, h, ih]
      · simp [List.foldl_cons, h, ih _]
        ring
  simpa using key 0

/-! ### State-machinery helper lemmas -/

section StateHelpers

variable {α : Type} [LinearOrderedField α]

/-- Reduction of an `Except` bind whose first component succeeded. -/
theorem ok_bind {ε β γ : Type} (a : β) (f : β → Except ε γ) :
    (Except.ok a >>= f) = f a := rfl

/-- Reduction of an `Except` bind whose first component failed. -/
theorem error_bind {ε β γ : Type} (e : ε) (f : β → Except ε γ) :
    ((Except.error e : Except ε β) >>= f) = Except.error e := rfl

/-- The `Box` branch of `get_flattened_obs`, exposed. -/
theorem getFlattenedObs_box (s : FCState α) (shape : List ℕ)
    (h : s.observationSpace = .box shape) :
    s.getFlattenedObs =
      (s.reshapeAndFlattenObs (if s.createSeparatePlaceholdersForEachPolicy then
          s.env.dataManager (OBSERVATIONS ++ "_" ++ s.policy)
        else s.env.dataManager OBSERVATIONS)) >>= fun flattened =>
        pure (flattened.toBatch3, s) := by
  unfold FCState.getFlattenedObs
  rw [h]

/-- The `Dict` branch of `get_flattened_obs`, exposed. -/
theorem getFlattenedObs_dict (s : FCState α) (entries : List (String × List ℕ))
    (h : s.observationSpace = .dict entries) :
    s.getFlattenedObs =
      (entries.foldlM (gfoStep s) ([], s.actionMask)) >>= fun od =>
        (od.1.mapM (fun e => (s.reshapeAndFlattenObs e.2).map Tensor.toBatch3)) >>=
          fun fl => pure (concatLastDim fl, { s with actionMask := od.2 }) := by
  unfold FCState.getFlattenedObs
  rw [h]

/-- `get_flattened_obs` only ever mutates the `action_mask` attribute:
the state it returns agrees with the input state on every other
field. -/
theorem getFlattenedObs_fields (s : FCState α) (r : Batch3 α × FCState α)
    (h : s.getFlattenedObs = .ok r) :
    r.2 = { s with actionMask := r.2.actionMask } := by
  cases hsp : s.observationSpace with
  | box shape =>
    rw [getFlattenedObs_box s shape hsp] at h
    rcases hre : s.reshapeAndFlattenObs (if s.createSeparatePlaceholdersForEachPolicy
        then s.env.dataManager (OBSERVATIONS ++ "_" ++ s.policy)
        else s.env.dataManager OBSERVATIONS) with e | t
    · rw [hre, error_bind] at h
      exact absurd h (by simp)
    · rw [hre, ok_bind] at h
      have h2 : r.2 = s := by
        have := (Except.ok.inj h).symm
        rw [this]
      rw [h2, ← hsp]
  | dict entries =>
    rw [getFlattenedObs_dict s entries hsp] at h
    rcases hfold : entries.foldlM (gfoStep s) ([], s.actionMask) with e | od
    · rw [hfold, error_bind] at h
      exact absurd h (by simp)
    · rw [hfold, ok_bind] at h
      rcases hmap : od.1.mapM
          (fun e => (s.reshapeAndFlattenObs e.2).map Tensor.toBatch3) with e | fl
      · rw [hmap, error_bind] at h
        exact absurd h (by simp)
      · rw [hmap, ok_bind] at h
        have h2 : r.2 = { s with actionMask := od.2 } := by
          have := (Except.ok.inj h).symm
          rw [this]
        rw [h2, ← hsp]
  | discrete n =>
    unfold FCState.getFlattenedObs at h
    rw [hsp] at h
    simp at h
  | multiDiscrete nvec =>
    unfold FCState.getFlattenedObs at h
    rw [hsp] at h
    simp at h
  | other =>
    unfold FCState.getFlattenedObs at h
    rw [hsp] at h
    simp at h

/-- The `ip` selection step of `forward` also only ever mutates the
`action_mask` attribute of the state. -/
theorem forwardInput_fields (s : FCState α) (obs? : Option (Batch3 α))
    (r : Batch3 α × FCState α) (h : s.forwardInput obs? = .ok r) :
    r.2 = { s with actionMask := r.2.actionMask } := by
  cases obs? with
  | some o =>
    have h2 : r = (o, s) := (Except.ok.inj h).symm
    rw [h2]
  | none =>
    unfold FCState.forwardInput at h
    rcases hg : s.getFlattenedObs with e | pr
    · rw [hg, error_bind] at h
      exact absurd h (by simp)
    · rw [hg, ok_bind] at h
      have hp := getFlattenedObs_fields s pr hg
      by_cases hc : pr.2.fastForwardMode = false ∧
          pr.2.createSeparatePlaceholdersForEachPolicy = false
      · rw [if_pos hc] at h
        have h2 : r = (selectAgents pr.1 (pr.2.policyTagToAgentIdMap pr.2.policy), pr.2) :=
          (Except.ok.inj h).symm
        rw [h2]
        exact hp
      · rw [if_neg hc] at h
        have h2 : r = (pr.1, pr.2) := (Except.ok.inj h).symm
        rw [h2]
        exact hp

/-- The forward computation up to the softmax also only ever mutates the
`action_mask` attribute of the state. -/
theorem forwardMaskedLogits_fields (s : FCState α) (obs? : Option (Batch3 α))
    (r : (List (Batch3 α) × List (List α)) × FCState α)
    (h : s.forwardMaskedLogits obs? = .ok r) :
    r.2 = { s with actionMask := r.2.actionMask } := by
  unfold FCState.forwardMaskedLogits at h
  rcases hfi : s.forwardInput obs? with e | p
  · rw [hfi, error_bind] at h
    exact absurd h (by simp)
  · rw [hfi, ok_bind] at h
    have hp := forwardInput_fields s obs? p hfi
    have h2 : r.2 = p.2 := by
      have h3 := (Except.ok.inj h).symm
      rw [h3]
    rw [h2]
    exact hp

end StateHelpers

/-! ### C9 -/

/-- C9: `set_fast_forward_mode` turns the flag on; calling it twice
yields exactly the state of calling it once, so the forward computation
after two calls is identical to the one after one call; and a forward
pass never changes the flag (the model's only mutation of state outside
`set_fast_forward_mode` is the `action_mask` update inside
`get_flattened_obs`), so once on, the flag never reverts. -/
theorem C9_fast_forward_mode (s : FCState ℚ) (obs? : Option (Batch3 ℚ)) :
    (s.setFastForwardMode).fastForwardMode = true ∧
    s.setFastForwardMode.setFastForwardMode = s.setFastForwardMode ∧
    (s.setFastForwardMode.setFastForwardMode).forwardMaskedLogits obs? =
      (s.setFastForwardMode).forwardMaskedLogits obs? ∧
    (s.forwardMaskedLogits obs?).map (fun r => r.2.fastForwardMode) =
      (s.forwardMaskedLogits obs?).map (fun _ => s.fastForwardMode) := by
  refine ⟨rfl, rfl, rfl, ?_⟩
  rcases h : s.forwardMaskedLogits obs? with e | r
  · rfl
  · have hr := forwardMaskedLogits_fields s obs? r h
    have hffm : r.2.fastForwardMode = s.fastForwardMode := by rw [hr]
    simp [Except.map, hffm]

/-! ### Concrete instances used as witnesses and counterexamples -/

/-- A two-agent environment with a `Box` observation space whose single
`observations` buffer holds feature `5` for agent 0 and `6` for agent 1
in one environment. -/
def boxEnvQ : EnvDesc ℚ :=
  { observationSpace := fun _ => .box [1]
    actionSpace := fun _ => .discrete 2
    nAgents := 2
    dataManager := fun k =>
      if k = "observations" then ⟨[1, 2, 1], [5, 6]⟩ else ⟨[], []⟩ }

/-- A network over `boxEnvQ` with shared placeholders, fast-forward
off, and policy `"p"` governing agent 0 only. -/
def boxStateQ : FCState ℚ :=
  { env := boxEnvQ
    policy := "p"
    policyTagToAgentIdMap := fun _ => [0]
    createSeparatePlaceholdersForEachPolicy := false
    obsDimCorrespondingToNumAgents := "first"
    fastForwardMode := false
    observationSpace := .box [1]
    fc := []
    policyHead := []
    vfHead := ⟨[], []⟩
    actionMask := none }

/-- A one-agent environment with a `Dict` observation space holding one
feature entry and an `action_mask` entry whose buffer is `[1, 0]`
(second action invalid). -/
def dictEnvQ : EnvDesc ℚ :=
  { observationSpace := fun _ => .dict [("obs1", [1]), (ACTION_MASK, [2])]
    actionSpace := fun _ => .discrete 2
    nAgents := 1
    dataManager := fun k =>
      if k = "observations_obs1" then ⟨[1, 1, 1], [0]⟩
      else if k = "observations_action_mask" then ⟨[1, 1, 2], [1, 0]⟩
      else ⟨[], []⟩ }

/-- A network over `dictEnvQ` with one identity trunk layer and a
single two-action policy head whose logits are always `[0, 0]`. -/
def dictStateQ : FCState ℚ :=
  { env := dictEnvQ
    policy := "p"
    policyTagToAgentIdMap := fun _ => [0]
    createSeparatePlaceholdersForEachPolicy := false
    obsDimCorrespondingToNumAgents := "first"
    fastForwardMode := false
    observationSpace := .dict [("obs1", [1]), (ACTION_MASK, [2])]
    fc := [⟨[[1]], [0]⟩]
    policyHead := [⟨[[0], [0]], [0, 0]⟩]
    vfHead := ⟨[[1]], [0]⟩
    actionMask := none }

/-! ### C6 -/

/-- C6 (amended): when `forward` assembles the observation itself (no
tensor passed), shared placeholders plus fast-forward off select exactly
the rows of this policy's agents and any other flag combination feeds
the full assembled batch; but a forward pass that receives an explicit
observation tensor always feeds it to the trunk whole, with no per-agent
selection. -/
theorem C6_amended_forward_input (s : FCState ℚ) (b obs : Batch3 ℚ)
    (s1 : FCState ℚ) (hok : s.getFlattenedObs = .ok (obs, s1)) :
    (s.fastForwardMode = false → s.createSeparatePlaceholdersForEachPolicy = false →
      s.forwardInput none =
        .ok (selectAgents obs (s.policyTagToAgentIdMap s.policy), s1)) ∧
    ((s.fastForwardMode = true ∨ s.createSeparatePlaceholdersForEachPolicy = true) →
      s.forwardInput none = .ok (obs, s1)) ∧
    s.forwardInput (some b) = .ok (b, s) := by
  have hf : s1 = { s with actionMask := s1.actionMask } :=
    getFlattenedObs_fields s (obs, s1) hok
  have hffm : s1.fastForwardMode = s.fastForwardMode := by rw [hf]
  have hsep : s1.createSeparatePlaceholdersForEachPolicy =
      s.createSeparatePlaceholdersForEachPolicy := by rw [hf]
  have hmap : s1.policyTagToAgentIdMap = s.policyTagToAgentIdMap := by rw [hf]
  have hpol : s1.policy = s.policy := by rw [hf]
  refine ⟨?_, ?_, rfl⟩
  · intro h1 h2
    unfold FCState.forwardInput
    rw [hok, ok_bind]
    rw [if_pos ⟨by rw [hffm, h1], by rw [hsep, h2]⟩]
    rw [hmap, hpol]
    rfl
  · intro h
    unfold FCState.forwardInput
    rw [hok, ok_bind]
    rw [if_neg ?hc]
    case hc =>
      rintro ⟨hA, hB⟩
      rcases h with h | h
      · rw [hffm, h] at hA
        exact Bool.noConfusion hA
      · rw [hsep, h] at hB
        exact Bool.noConfusion hB
    rfl

/-- C6 witness: the amended theorem applied to `boxStateQ` (shared
placeholders, fast-forward off, policy governing agent 0 of 2): the
assembled two-agent batch `[[[5], [6]]]` is cut down to agent 0's row on
the internal path, while an explicitly passed batch goes through
whole. -/
theorem C6_amended_forward_input_witness :
    boxStateQ.getFlattenedObs = .ok ([[[(5 : ℚ)], [6]]], boxStateQ) ∧
    ((boxStateQ.fastForwardMode = false →
        boxStateQ.createSeparatePlaceholdersForEachPolicy = false →
        boxStateQ.forwardInput none =
          .ok (selectAgents [[[(5 : ℚ)], [6]]]
            (boxStateQ.policyTagToAgentIdMap boxStateQ.policy), boxStateQ)) ∧
     ((boxStateQ.fastForwardMode = true ∨
        boxStateQ.createSeparatePlaceholdersForEachPolicy = true) →
        boxStateQ.forwardInput none = .ok ([[[(5 : ℚ)], [6]]], boxStateQ)) ∧
     boxStateQ.forwardInput (some [[[(9 : ℚ)], [9]]]) =
       .ok ([[[(9 : ℚ)], [9]]], boxStateQ)) :=
  ⟨rfl, C6_amended_forward_input boxStateQ [[[9], [9]]] [[[5], [6]]] boxStateQ rfl⟩

/-- C6 counterexample: `boxStateQ` has shared placeholders and
fast-forward off, and its policy governs agent 0 only; yet a forward
pass given an explicit two-agent observation batch feeds the trunk both
agent rows unchanged — not only the rows of the agents in the
policy-to-agent mapping, refuting the claim for forward passes that are
handed a precomputed observation tensor. -/
theorem C6_counterexample :
    boxStateQ.createSeparatePlaceholdersForEachPolicy = false ∧
    boxStateQ.fastForwardMode = false ∧
    boxStateQ.policyTagToAgentIdMap boxStateQ.policy = [0] ∧
    boxStateQ.forwardInput (some [[[(0 : ℚ)], [1]]]) =
      .ok ([[[(0 : ℚ)], [1]]], boxStateQ) ∧
    selectAgents [[[(0 : ℚ)], [1]]] [0] ≠ [[[(0 : ℚ)], [1]]] := by
  refine ⟨rfl, rfl, rfl, rfl, ?_⟩
  decide

/-! ### C2 -/

/-- The first loop of `get_flattened_obs` over a dict space containing
the `action_mask` key replaces the stored mask, so its result does not
depend on the mask the instance held before the pass. -/
theorem gfoFold_mask_indep {α : Type} [LinearOrderedField α] (s : FCState α) :
    ∀ (entries : List (String × List ℕ)) (l : List (String × Tensor α))
      (m1 m2 : Option (Batch3 α)),
      entries.any (fun e => e.1 = ACTION_MASK) = true →
      entries.foldlM (gfoStep s) (l, m1) = entries.foldlM (gfoStep s) (l, m2) := by
  intro entries
  induction entries with
  | nil =>
    intro l m1 m2 h
    simp at h
  | cons e t ih =>
    intro l m1 m2 h
    rw [List.foldlM_cons, List.foldlM_cons]
    by_cases hk : e.1 = ACTION_MASK
    · have hstep : ∀ m0 : Option (Batch3 α), gfoStep s (l, m0) e =
          (s.reshapeAndFlattenObs (s.env.dataManager (s.dictKey e.1))) >>=
            fun mm => pure (l, some mm.toBatch3) := by
        intro m0
        unfold gfoStep
        rw [if_pos hk]
      rw [hstep m1, hstep m2]
    · have hstep : ∀ m0 : Option (Batch3 α), gfoStep s (l, m0) e =
          pure (l ++ [(e.1, s.env.dataManager (s.dictKey e.1))], m0) := by
        intro m0
        unfold gfoStep
        rw [if_neg hk]
      rw [hstep m1, hstep m2, pure_bind, pure_bind]
      apply ih
      simpa [hk] using h

/-- C2 (amended): the action mask is persisted on the instance, not
transient.  A forward pass that receives an explicit observation tensor
leaves the stored mask untouched and applies it to the logits of every
policy head; only a pass that assembles its observation itself over a
dict space containing the `action_mask` key recomputes the stored mask
from the current data-manager buffers (its result is independent of the
mask held before). -/
theorem C2_amended_mask_persistence (s : FCState ℚ) (b : Batch3 ℚ)
    (m1 m2 : Option (Batch3 ℚ)) (entries : List (String × List ℕ))
    (hsp : s.observationSpace = .dict entries)
    (hmask : entries.any (fun e => e.1 = ACTION_MASK) = true) :
    (s.forwardMaskedLogits (some b)).map (fun r => r.2) = .ok s ∧
    (s.forwardMaskedLogits (some b)).map (fun r => r.1.1) =
      .ok (s.policyHead.map (fun ph => applyHeadMasked s.actionMask ph
        (s.fc.foldl (fun x L => mapRows (fcLayer L) x) b))) ∧
    ({ s with actionMask := m1 } : FCState ℚ).getFlattenedObs =
      ({ s with actionMask := m2 } : FCState ℚ).getFlattenedObs := by
  refine ⟨rfl, rfl, ?_⟩
  have h1 : ({ s with actionMask := m1 } : FCState ℚ).getFlattenedObs =
      (entries.foldlM (gfoStep s) ([], m1)) >>= fun od =>
        (od.1.mapM (fun e => (s.reshapeAndFlattenObs e.2).map Tensor.toBatch3)) >>=
          fun fl => pure (concatLastDim fl, { s with actionMask := od.2 }) := by
    rw [getFlattenedObs_dict ({ s with actionMask := m1 }) entries hsp]
    exact rfl
  have h2 : ({ s with actionMask := m2 } : FCState ℚ).getFlattenedObs =
      (entries.foldlM (gfoStep s) ([], m2)) >>= fun od =>
        (od.1.mapM (fun e => (s.reshapeAndFlattenObs e.2).map Tensor.toBatch3)) >>=
          fun fl => pure (concatLastDim fl, { s with actionMask := od.2 }) := by
    rw [getFlattenedObs_dict ({ s with actionMask := m2 }) entries hsp]
    exact rfl
  rw [h1, h2, gfoFold_mask_indep s entries [] m1 m2 hmask]

/-- C2 witness: the amended theorem applied to `dictStateQ`. -/
theorem C2_amended_mask_persistence_witness :
    (dictStateQ.observationSpace = .dict [("obs1", [1]), (ACTION_MASK, [2])] ∧
     ([("obs1", [1]), (ACTION_MASK, [2])] : List (String × List ℕ)).any
       (fun e => e.1 = ACTION_MASK) = true) ∧
    ((dictStateQ.forwardMaskedLogits (some [[[(0 : ℚ)]]])).map (fun r => r.2) =
       .ok dictStateQ ∧
     (dictStateQ.forwardMaskedLogits (some [[[(0 : ℚ)]]])).map (fun r => r.1.1) =
       .ok (dictStateQ.policyHead.map (fun ph =>
         applyHeadMasked dictStateQ.actionMask ph
           (dictStateQ.fc.foldl (fun x L => mapRows (fcLayer L) x) [[[(0 : ℚ)]]]))) ∧
     ({ dictStateQ with actionMask := none } : FCState ℚ).getFlattenedObs =
       ({ dictStateQ with actionMask := some [[[1, 0]]] } : FCState ℚ).getFlattenedObs) :=
  ⟨⟨rfl, rfl⟩,
   C2_amended_mask_persistence dictStateQ [[[0]]] none (some [[[1, 0]]])
     [("obs1", [1]), (ACTION_MASK, [2])] rfl rfl⟩

/-- C2 counterexample: a first forward pass of `dictStateQ` (observation
assembled from the dict space) stores the mask `[[[1, 0]]]` computed
from the current batch on the instance; a second forward pass that is
handed an explicit observation tensor then applies that left-over mask
to its logits (`[0, 0]` becomes `[0, -10⁷]`), whereas the same pass on
an instance holding no mask leaves the logits `[0, 0]` — so a forward
call can apply a mask left over from an earlier batch, refuting the
claim. -/
theorem C2_counterexample :
    (dictStateQ.forwardMaskedLogits none).map (fun r => r.2) =
      .ok ({ dictStateQ with actionMask := some [[[1, 0]]] } : FCState ℚ) ∧
    (({ dictStateQ with actionMask := some [[[1, 0]]] } : FCState ℚ).forwardMaskedLogits
        (some [[[(0 : ℚ)]]])).map (fun r => r.1.1) =
      .ok [[[[(0 : ℚ), -10000000]]]] ∧
    (({ dictStateQ with actionMask := none } : FCState ℚ).forwardMaskedLogits
        (some [[[(0 : ℚ)]]])).map (fun r => r.1.1) =
      .ok [[[[(0 : ℚ), 0]]]] := by
  refine ⟨rfl, ?_, ?_⟩ <;>
    · show Except.ok _ = _
      norm_num [dictStateQ, applyHeadMasked, fcLayer, Linear.apply, dotProd,
        relu, applyLogitMask, mapRows]

/-! ### C4 -/

/-- A copy of `boxStateQ` configured with the agent dimension last. -/
def lastStateQ : FCState ℚ :=
  { boxStateQ with obsDimCorrespondingToNumAgents := "last" }

/-- C4: over a batch of shape `[E, F, N]` with the agent dimension
configured `"last"` and the configured agent count equal to `N`,
`reshape_and_flatten_obs` returns a tensor of shape `[E, N, F]` (the
agent axis is permuted to the second position and the remaining axes
are flattened into one feature axis); over a batch already shaped
`[E, N, F]` with the agent dimension `"first"`, it returns the very
same tensor (a no-op reshape). -/
theorem C4_reshape_and_flatten (E F N : ℕ) (dataL dataF : List ℚ)
    (sL sF : FCState ℚ)
    (hLdim : sL.obsDimCorrespondingToNumAgents = "last")
    (hLA : (if sL.createSeparatePlaceholdersForEachPolicy then
        (sL.policyTagToAgentIdMap sL.policy).length else sL.env.nAgents) = N)
    (hFdim : sF.obsDimCorrespondingToNumAgents = "first")
    (hFA : (if sF.createSeparatePlaceholdersForEachPolicy then
        (sF.policyTagToAgentIdMap sF.policy).length else sF.env.nAgents) = N)
    (hE : 0 < E) (hN : 0 < N) (hlen : dataF.length = E * N * F) :
    (sL.reshapeAndFlattenObs ⟨[E, F, N], dataL⟩).map Tensor.shape =
      .ok [E, N, F] ∧
    sF.reshapeAndFlattenObs ⟨[E, N, F], dataF⟩ = .ok ⟨[E, N, F], dataF⟩ := by
  have hEN : 0 < E * N := Nat.mul_pos hE hN
  constructor
  · unfold FCState.reshapeAndFlattenObs
    rw [hLdim]
    simp only [hLA]
    simp [Tensor.permute, Tensor.reshape3, Except.map, List.getD]
    rw [← mul_assoc, Nat.mul_div_cancel_left F hEN]
    rfl
  · unfold FCState.reshapeAndFlattenObs
    rw [hFdim]
    simp only [hFA]
    simp [Tensor.reshape3, Except.map, List.getD, hlen]
    rw [Nat.mul_div_cancel_left F hEN]
    rfl

/-- C4 witness: the theorem applied with `E = 1`, `F = 3`, `N = 2`, to
`lastStateQ` (agent dimension last) and `boxStateQ` (agent dimension
first), both configured for 2 agents. -/
theorem C4_reshape_and_flatten_witness :
    (lastStateQ.obsDimCorrespondingToNumAgents = "last" ∧
     (if lastStateQ.createSeparatePlaceholdersForEachPolicy then
        (lastStateQ.policyTagToAgentIdMap lastStateQ.policy).length
      else lastStateQ.env.nAgents) = 2 ∧
     boxStateQ.obsDimCorrespondingToNumAgents = "first" ∧
     (if boxStateQ.createSeparatePlaceholdersForEachPolicy then
        (boxStateQ.policyTagToAgentIdMap boxStateQ.policy).length
      else boxStateQ.env.nAgents) = 2 ∧
     0 < 1 ∧ 0 < 2 ∧
     ([(1 : ℚ), 2, 3, 4, 5, 6]).length = 1 * 2 * 3) ∧
    ((lastStateQ.reshapeAndFlattenObs ⟨[1, 3, 2], [10, 11, 12, 13, 14, 15]⟩).map
        Tensor.shape = .ok [1, 2, 3] ∧
     boxStateQ.reshapeAndFlattenObs ⟨[1, 2, 3], [1, 2, 3, 4, 5, 6]⟩ =
       .ok ⟨[1, 2, 3], [1, 2, 3, 4, 5, 6]⟩) :=
  ⟨⟨rfl, rfl, rfl, rfl, by decide, by decide, by decide⟩,
   C4_reshape_and_flatten 1 3 2 [10, 11, 12, 13, 14, 15] [1, 2, 3, 4, 5, 6]
     lastStateQ boxStateQ rfl rfl rfl rfl (by decide) (by decide) (by decide)⟩

/-- An all-zero `nn.Linear` initializer of the requested dimensions
(stands in for torch's random initialization, which the embedding takes
as an injected argument). -/
def mkLinearZero : ℕ → ℕ → Linear ℚ :=
  fun i o => ⟨List.replicate o (List.replicate i 0), List.replicate o 0⟩

/-- A copy of `boxStateQ` whose stored observation space is of an
unsupported kind. -/
def otherStateQ : FCState ℚ := { boxStateQ with observationSpace := .other }

/-- An environment with a supported (`Box`) observation space but an
unsupported action space. -/
def otherActEnvQ : EnvDesc ℚ :=
  { observationSpace := fun _ => .box [1]
    actionSpace := fun _ => .other
    nAgents := 1
    dataManager := fun _ => ⟨[], []⟩ }

/-! ### C8 -/

/-- C8: an observation space that is neither `Box` nor `Dict` makes
both `get_flattened_obs_size` and `get_flattened_obs` raise the
unsupported-type error, and an action space that is neither `Discrete`
nor `MultiDiscrete` makes construction raise `NotImplementedError`
(the observation space being supported, so the action check is
reached); in the embedding the errors are returned directly from the
point of detection - nothing catches them. -/
theorem C8_unsupported_space_errors (sp : SpaceDesc) (s : FCState ℚ)
    (env : EnvDesc ℚ) (fc_dims : List ℕ) (policy : String)
    (pmap : String → List ℕ) (sep : Bool) (obsDim : String)
    (mk : ℕ → ℕ → Linear ℚ)
    (h1 : sp.isBoxOrDict = false)
    (h2 : s.observationSpace = sp)
    (h3 : (env.observationSpace ((pmap policy).getD 0 0)).isBoxOrDict = true)
    (h4 : (env.actionSpace ((pmap policy).getD 0 0)).isDiscreteLike = false)
    (h5 : obsDim = "first" ∨ obsDim = "last") :
    getFlattenedObsSize sp = .error "Observation space must be of Box or Dict type" ∧
    s.getFlattenedObs = .error "Observation space must be of Box or Dict type" ∧
    initFC env fc_dims policy pmap sep obsDim mk = .error "NotImplementedError" := by
  refine ⟨?_, ?_, ?_⟩
  · cases sp with
    | box shape => simp [SpaceDesc.isBoxOrDict] at h1
    | dict es => simp [SpaceDesc.isBoxOrDict] at h1
    | discrete n => rfl
    | multiDiscrete v => rfl
    | other => rfl
  · cases sp with
    | box shape => simp [SpaceDesc.isBoxOrDict] at h1
    | dict es => simp [SpaceDesc.isBoxOrDict] at h1
    | discrete n =>
      unfold FCState.getFlattenedObs
      rw [h2]
    | multiDiscrete v =>
      unfold FCState.getFlattenedObs
      rw [h2]
    | other =>
      unfold FCState.getFlattenedObs
      rw [h2]
  · unfold initFC
    rw [if_pos h5]
    rcases hobs : env.observationSpace ((pmap policy).getD 0 0) with sh | es | n | v | _
    · rcases hact : env.actionSpace ((pmap policy).getD 0 0) with sh2 | es2 | n2 | v2 | _ <;>
        first
          | (rw [hact] at h4; simp [SpaceDesc.isDiscreteLike] at h4; done)
          | simp only [hobs, hact, getFlattenedObsSize, ok_bind, error_bind]
    · rcases hact : env.actionSpace ((pmap policy).getD 0 0) with sh2 | es2 | n2 | v2 | _ <;>
        first
          | (rw [hact] at h4; simp [SpaceDesc.isDiscreteLike] at h4; done)
          | simp only [hobs, hact, getFlattenedObsSize, ok_bind, error_bind]
    · rw [hobs] at h3
      simp [SpaceDesc.isBoxOrDict] at h3
    · rw [hobs] at h3
      simp [SpaceDesc.isBoxOrDict] at h3
    · rw [hobs] at h3
      simp [SpaceDesc.isBoxOrDict] at h3

/-- C8 witness: the theorem applied to the `other` space descriptor,
`otherStateQ`, and `otherActEnvQ` (supported observation space,
unsupported action space). -/
theorem C8_unsupported_space_errors_witness :
    ((SpaceDesc.other).isBoxOrDict = false ∧
     otherStateQ.observationSpace = .other ∧
     (otherActEnvQ.observationSpace ((((fun _ => [0]) : String → List ℕ) "p").getD 0 0)).isBoxOrDict = true ∧
     (otherActEnvQ.actionSpace ((((fun _ => [0]) : String → List ℕ) "p").getD 0 0)).isDiscreteLike = false ∧
     (("first" : String) = "first" ∨ ("first" : String) = "last")) ∧
    (getFlattenedObsSize .other =
       .error "Observation space must be of Box or Dict type" ∧
     otherStateQ.getFlattenedObs =
       .error "Observation space must be of Box or Dict type" ∧
     initFC otherActEnvQ [1] "p" (fun _ => [0]) false "first" mkLinearZero =
       .error "NotImplementedError") :=
  ⟨⟨rfl, rfl, rfl, rfl, Or.inl rfl⟩,
   C8_unsupported_space_errors .other otherStateQ otherActEnvQ [1] "p"
     (fun _ => [0]) false "first" mkLinearZero rfl rfl rfl rfl (Or.inl rfl)⟩

/-- A one-agent environment with a `Box` observation space of width 2
and a 3-action `Discrete` action space, used to build a network through
the constructor. -/
def initEnvQ : EnvDesc ℚ :=
  { observationSpace := fun _ => .box [2]
    actionSpace := fun _ => .discrete 3
    nAgents := 1
    dataManager := fun _ => ⟨[], []⟩ }

/-- The state `initFC` builds over `initEnvQ` with one hidden layer of
width 4 and zero-initialized parameters. -/
def initStateQ : FCState ℚ :=
  { env := initEnvQ
    policy := "p"
    policyTagToAgentIdMap := fun _ => [0]
    createSeparatePlaceholdersForEachPolicy := false
    obsDimCorrespondingToNumAgents := "first"
    fastForwardMode := false
    observationSpace := .box [2]
    fc := [mkLinearZero 2 4]
    policyHead := [mkLinearZero 4 3]
    vfHead := mkLinearZero 4 1
    actionMask := none }

/-! ### C10 -/

/-- With a valid agent-dimension configuration,
`reshape_and_flatten_obs` always succeeds (the `ValueError` branch is
the only failure point of the function). -/
theorem reshapeAndFlattenObs_isOk (s : FCState ℚ) (obs : Tensor ℚ)
    (h : s.obsDimCorrespondingToNumAgents = "first" ∨
         s.obsDimCorrespondingToNumAgents = "last") :
    isOkE (s.reshapeAndFlattenObs obs) = true := by
  unfold FCState.reshapeAndFlattenObs
  rcases h with h | h <;> rw [h] <;> simp [isOkE, pure, Except.pure, ok_bind]

/-- C10: construction asserts the agent-dimension configuration is
`"first"` or `"last"`, so any successfully constructed instance stores
one of those two values and every call of `reshape_and_flatten_obs` on
it succeeds — the configuration `ValueError` branch is unreachable
through a constructed instance. -/
theorem C10_config_assert (env : EnvDesc ℚ) (fc_dims : List ℕ)
    (policy : String) (pmap : String → List ℕ) (sep : Bool)
    (obsDim : String) (mk : ℕ → ℕ → Linear ℚ) (s : FCState ℚ)
    (obs : Tensor ℚ)
    (h : initFC env fc_dims policy pmap sep obsDim mk = .ok s) :
    (s.obsDimCorrespondingToNumAgents = "first" ∨
     s.obsDimCorrespondingToNumAgents = "last") ∧
    isOkE (s.reshapeAndFlattenObs obs) = true := by
  unfold initFC at h
  by_cases hc : (obsDim = "first" ∨ obsDim = "last")
  · rw [if_pos hc] at h
    rcases hsz : getFlattenedObsSize (env.observationSpace ((pmap policy).getD 0 0)) with e | n
    · simp only [hsz, error_bind] at h
      exact absurd h (by simp)
    · simp only [hsz, ok_bind] at h
      rcases hact : env.actionSpace ((pmap policy).getD 0 0) with sh | es | k | v | _
      · simp only [hact, error_bind] at h
        exact absurd h (by simp)
      · simp only [hact, error_bind] at h
        exact absurd h (by simp)
      · simp only [hact, pure_bind] at h
        have hdim : s.obsDimCorrespondingToNumAgents = obsDim := by
          have h2 := Except.ok.inj h
          rw [← h2]
        have hor : s.obsDimCorrespondingToNumAgents = "first" ∨
            s.obsDimCorrespondingToNumAgents = "last" := by
          rw [hdim]
          exact hc
        exact ⟨hor, reshapeAndFlattenObs_isOk s obs hor⟩
      · simp only [hact, pure_bind] at h
        have hdim : s.obsDimCorrespondingToNumAgents = obsDim := by
          have h2 := Except.ok.inj h
          rw [← h2]
        have hor : s.obsDimCorrespondingToNumAgents = "first" ∨
            s.obsDimCorrespondingToNumAgents = "last" := by
          rw [hdim]
          exact hc
        exact ⟨hor, reshapeAndFlattenObs_isOk s obs hor⟩
      · simp only [hact, error_bind] at h
        exact absurd h (by simp)
  · rw [if_neg hc] at h
    exact absurd h (by simp)

/-- C10 witness: the theorem applied to a concrete successful
construction over `initEnvQ`. -/
theorem C10_config_assert_witness :
    initFC initEnvQ [4] "p" (fun _ => [0]) false "first" mkLinearZero =
      .ok initStateQ ∧
    ((initStateQ.obsDimCorrespondingToNumAgents = "first" ∨
      initStateQ.obsDimCorrespondingToNumAgents = "last") ∧
     isOkE (initStateQ.reshapeAndFlattenObs ⟨[1, 1, 2], [7, 8]⟩) = true) :=
  ⟨rfl,
   C10_config_assert initEnvQ [4] "p" (fun _ => [0]) false "first" mkLinearZero
     initStateQ ⟨[1, 1, 2], [7, 8]⟩ rfl⟩

/-! ### C7 helper lemmas -/

/-- Indexing with default `[]` commutes with mapping a function that
preserves `[]`. -/
theorem getD_map_nil {β γ : Type} (g : List β → List γ) (hg : g [] = [])
    (x : List (List β)) (e : ℕ) :
    (x.map g).getD e [] = g (x.getD e []) := by
  by_cases he : e < x.length
  · rw [List.getD_eq_getElem _ _ (by simpa using he), List.getElem_map,
      List.getD_eq_getElem _ _ he]
  · rw [List.getD_eq_default _ _ (by simpa using Nat.le_of_not_lt he),
      List.getD_eq_default _ _ (Nat.le_of_not_lt he), hg]

/-- The trunk preserves the number of environments. -/
theorem trunk_length {α : Type} [LinearOrderedField α]
    (fcs : List (Linear α)) (b : Batch3 α) :
    (fcs.foldl (fun x L => mapRows (fcLayer L) x) b).length = b.length := by
  induction fcs generalizing b with
  | nil => rfl
  | cons L t ih =>
    rw [List.foldl_cons, ih (mapRows (fcLayer L) b)]
    simp [mapRows]

/-- The trunk preserves the number of agent rows of every
environment. -/
theorem trunk_getD {α : Type} [LinearOrderedField α]
    (fcs : List (Linear α)) (b : Batch3 α) (e : ℕ) :
    ((fcs.foldl (fun x L => mapRows (fcLayer L) x) b).getD e []).length =
      (b.getD e []).length := by
  induction fcs generalizing b with
  | nil => rfl
  | cons L t ih =>
    rw [List.foldl_cons, ih (mapRows (fcLayer L) b)]
    unfold mapRows
    rw [getD_map_nil _ rfl, List.length_map]

/-- A linear layer with `n` output rows and `n` biases produces rows of
length `n`. -/
theorem Linear.apply_length {α : Type} [LinearOrderedField α]
    (L : Linear α) (n : ℕ) (hw : L.weight.length = n)
    (hb : L.bias.length = n) (row : List α) : (L.apply row).length = n := by
  simp [Linear.apply, List.length_zip, hw, hb]

/-- Softmax preserves row length. -/
theorem softmaxF_length (x : List ℝ) : (softmaxF x).length = x.length := by
  simp [softmaxF]

/-- The sum of the exponentials of a nonempty row is positive. -/
theorem sum_map_exp_pos (x : List ℝ) (hx : x ≠ []) :
    0 < (x.map Real.exp).sum := by
  cases x with
  | nil => exact absurd rfl hx
  | cons a t =>
    have h1 : 0 < Real.exp a := Real.exp_pos a
    have h2 : 0 ≤ (t.map Real.exp).sum := by
      apply List.sum_nonneg
      intro y hy
      obtain ⟨v, _, hv⟩ := List.mem_map.mp hy
      rw [← hv]
      exact le_of_lt (Real.exp_pos v)
    simp only [List.map_cons, List.sum_cons]
    linarith

/-- Softmax of a nonempty row sums to exactly 1. -/
theorem softmaxF_sum (x : List ℝ) (hx : x ≠ []) : (softmaxF x).sum = 1 := by
  unfold softmaxF
  have hpos := sum_map_exp_pos x hx
  have hS : (x.map Real.exp).sum ≠ 0 := ne_of_gt hpos
  have hrw : x.map (fun v => Real.exp v / (x.map Real.exp).sum) =
      x.map (fun v => Real.exp v * ((x.map Real.exp).sum)⁻¹) := by
    simp [div_eq_mul_inv]
  rw [hrw, List.sum_map_mul_right, mul_inv_cancel₀ hS]

/-- Indexing an environment out of a row-mapped batch. -/
theorem mapRows_getD {α : Type} [LinearOrderedField α]
    (f : List α → List α) (x : Batch3 α) (e : ℕ) :
    (mapRows f x).getD e [] = (x.getD e []).map f :=
  getD_map_nil (List.map f) rfl x e

/-- Shape and normalization facts of a forward pass over an explicitly
passed batch, for a network with two policy heads of output widths 4
and 3 and no stored action mask. -/
theorem forward_heads (s : FCState ℝ) (b : Batch3 ℝ) (h4 h3 : Linear ℝ)
    (hph : s.policyHead = [h4, h3]) (hm : s.actionMask = none)
    (hw4 : h4.weight.length = 4) (hb4 : h4.bias.length = 4)
    (hw3 : h3.weight.length = 3) (hb3 : h3.bias.length = 3) :
    ∃ probs vals,
      s.forward (some b) = .ok ((probs, vals), s) ∧
      probs.length = 2 ∧
      (∀ k, k < 2 → (probs.getD k []).length = b.length) ∧
      (∀ k e, k < 2 →
        ((probs.getD k []).getD e []).length = (b.getD e []).length) ∧
      (∀ e a, e < b.length → a < (b.getD e []).length →
        (((probs.getD 0 []).getD e []).getD a []).length = 4 ∧
        (((probs.getD 0 []).getD e []).getD a []).sum = 1) ∧
      (∀ e a, e < b.length → a < (b.getD e []).length →
        (((probs.getD 1 []).getD e []).getD a []).length = 3 ∧
        (((probs.getD 1 []).getD e []).getD a []).sum = 1) ∧
      vals.length = b.length ∧
      (∀ e, (vals.getD e []).length = (b.getD e []).length) := by
  classical
  set op := s.fc.foldl (fun x L => mapRows (fcLayer L) x) b with hop
  have hoplen : op.length = b.length := trunk_length s.fc b
  have hopgetD : ∀ e, (op.getD e []).length = (b.getD e []).length :=
    fun e => trunk_getD s.fc b e
  have hfml : s.forwardMaskedLogits (some b) =
      .ok ((s.policyHead.map (fun ph => applyHeadMasked s.actionMask ph op),
            (op.map (fun env => env.map (fun row => s.vfHead.apply row))).map
              (fun env => env.map (fun row => row.getD 0 0))), s) := rfl
  have hfw : s.forward (some b) =
      .ok (([mapRows softmaxF (mapRows (fun row => h4.apply row) op),
             mapRows softmaxF (mapRows (fun row => h3.apply row) op)],
            (op.map (fun env => env.map (fun row => s.vfHead.apply row))).map
              (fun env => env.map (fun row => row.getD 0 0))), s) := by
    unfold FCState.forward
    rw [hfml]
    simp only [Except.map]
    rw [hph, hm]
    rfl
  refine ⟨_, _, hfw, rfl, ?_, ?_, ?_, ?_, ?_, ?_⟩
  · intro k hk
    interval_cases k <;> simp [mapRows, hoplen]
  · intro k e hk
    interval_cases k
    · rw [List.getD_cons_zero, mapRows_getD, List.length_map, mapRows_getD,
        List.length_map, hopgetD e]
    · rw [List.getD_cons_succ, List.getD_cons_zero, mapRows_getD,
        List.length_map, mapRows_getD, List.length_map, hopgetD e]
  · intro e a he ha
    have ha' : a < (op.getD e []).length := by
      rw [hopgetD e]
      exact ha
    have hlen2 : a < (((op.getD e []).map (fun row => h4.apply row)).map softmaxF).length := by
      simpa using ha'
    rw [List.getD_cons_zero, mapRows_getD, mapRows_getD,
      List.getD_eq_getElem _ _ hlen2, List.getElem_map, List.getElem_map]
    constructor
    · rw [softmaxF_length]
      exact Linear.apply_length h4 4 hw4 hb4 _
    · apply softmaxF_sum
      intro hcon
      have hl := Linear.apply_length h4 4 hw4 hb4 ((op.getD e []).get ⟨a, ha'⟩)
      rw [show (op.getD e []).get ⟨a, ha'⟩ = (op.getD e [])[a] from rfl] at hl
      rw [hcon] at hl
      simp at hl
  · intro e a he ha
    have ha' : a < (op.getD e []).length := by
      rw [hopgetD e]
      exact ha
    have hlen2 : a < (((op.getD e []).map (fun row => h3.apply row)).map softmaxF).length := by
      simpa using ha'
    rw [List.getD_cons_succ, List.getD_cons_zero, mapRows_getD, mapRows_getD,
      List.getD_eq_getElem _ _ hlen2, List.getElem_map, List.getElem_map]
    constructor
    · rw [softmaxF_length]
      exact Linear.apply_length h3 3 hw3 hb3 _
    · apply softmaxF_sum
      intro hcon
      have hl := Linear.apply_length h3 3 hw3 hb3 ((op.getD e []).get ⟨a, ha'⟩)
      rw [show (op.getD e []).get ⟨a, ha'⟩ = (op.getD e [])[a] from rfl] at hl
      rw [hcon] at hl
      simp at hl
  · simp [hoplen]
  · intro e
    rw [getD_map_nil _ rfl, getD_map_nil _ rfl, List.length_map, List.length_map]
    exact hopgetD e

/-! ### C7 -/

/-- An all-zero `nn.Linear` initializer over the reals. -/
noncomputable def mkLinearZeroR : ℕ → ℕ → Linear ℝ :=
  fun i o => ⟨List.replicate o (List.replicate i 0), List.replicate o 0⟩

/-- A one-agent environment whose action space is the two-dimensional
`MultiDiscrete [4, 3]`. -/
noncomputable def c7EnvR : EnvDesc ℝ :=
  { observationSpace := fun _ => .box [2]
    actionSpace := fun _ => .multiDiscrete [4, 3]
    nAgents := 1
    dataManager := fun _ => ⟨[], []⟩ }

/-- The state `initFC` builds over `c7EnvR` with one hidden layer of
width 4. -/
noncomputable def c7StateR : FCState ℝ :=
  { env := c7EnvR
    policy := "p"
    policyTagToAgentIdMap := fun _ => [0]
    createSeparatePlaceholdersForEachPolicy := false
    obsDimCorrespondingToNumAgents := "first"
    fastForwardMode := false
    observationSpace := .box [2]
    fc := [mkLinearZeroR 2 4]
    policyHead := [mkLinearZeroR 4 4, mkLinearZeroR 4 3]
    vfHead := mkLinearZeroR 4 1
    actionMask := none }

/-- C7: a network constructed over an action space `[4, 3]` has two
policy heads; a forward pass over an explicitly passed batch returns a
2-element sequence of probability tensors whose last dimensions are 4
and 3, each row summing to 1 for every in-range (environment, agent)
position, and a value tensor of shape `[E, A]` (one scalar per
environment and agent — the trailing singleton already removed). -/
theorem C7_forward_action_space (env : EnvDesc ℝ) (fc_dims : List ℕ)
    (policy : String) (pmap : String → List ℕ) (sep : Bool) (obsDim : String)
    (mk : ℕ → ℕ → Linear ℝ) (s : FCState ℝ) (b : Batch3 ℝ)
    (hact : env.actionSpace ((pmap policy).getD 0 0) = .multiDiscrete [4, 3])
    (hmk : ∀ i o, (mk i o).weight.length = o ∧ (mk i o).bias.length = o)
    (hinit : initFC env fc_dims policy pmap sep obsDim mk = .ok s) :
    ∃ probs vals,
      s.forward (some b) = .ok ((probs, vals), s) ∧
      probs.length = 2 ∧
      (∀ k, k < 2 → (probs.getD k []).length = b.length) ∧
      (∀ k e, k < 2 →
        ((probs.getD k []).getD e []).length = (b.getD e []).length) ∧
      (∀ e a, e < b.length → a < (b.getD e []).length →
        (((probs.getD 0 []).getD e []).getD a []).length = 4 ∧
        (((probs.getD 0 []).getD e []).getD a []).sum = 1) ∧
      (∀ e a, e < b.length → a < (b.getD e []).length →
        (((probs.getD 1 []).getD e []).getD a []).length = 3 ∧
        (((probs.getD 1 []).getD e []).getD a []).sum = 1) ∧
      vals.length = b.length ∧
      (∀ e, (vals.getD e []).length = (b.getD e []).length) := by
  unfold initFC at hinit
  by_cases hc : (obsDim = "first" ∨ obsDim = "last")
  · rw [if_pos hc] at hinit
    rcases hsz : getFlattenedObsSize (env.observationSpace ((pmap policy).getD 0 0)) with e | n
    · simp only [hsz, error_bind] at hinit
      exact absurd hinit (by simp)
    · simp only [hsz, ok_bind, hact, pure_bind] at hinit
      have h2 := Except.ok.inj hinit
      have hph : s.policyHead =
          [mk (fc_dims.getLastD 0) 4, mk (fc_dims.getLastD 0) 3] := by
        rw [← h2]
        exact rfl
      have hm : s.actionMask = none := by
        rw [← h2]
      exact forward_heads s b _ _ hph hm (hmk _ 4).1 (hmk _ 4).2
        (hmk _ 3).1 (hmk _ 3).2
  · rw [if_neg hc] at hinit
    exact absurd hinit (by simp)

/-- C7 witness: the theorem applied to a concrete construction over
`c7EnvR` and the batch `[[[1, 2]]]` (one environment, one agent, two
features). -/
theorem C7_forward_action_space_witness :
    (c7EnvR.actionSpace ((((fun _ => [0]) : String → List ℕ) "p").getD 0 0) =
       .multiDiscrete [4, 3] ∧
     (∀ i o, (mkLinearZeroR i o).weight.length = o ∧
       (mkLinearZeroR i o).bias.length = o) ∧
     initFC c7EnvR [4] "p" (fun _ => [0]) false "first" mkLinearZeroR =
       .ok c7StateR) ∧
    (∃ probs vals,
      c7StateR.forward (some [[[(1 : ℝ), 2]]]) = .ok ((probs, vals), c7StateR) ∧
      probs.length = 2 ∧
      (∀ k, k < 2 →
        (probs.getD k []).length = ([[[(1 : ℝ), 2]]] : Batch3 ℝ).length) ∧
      (∀ k e, k < 2 →
        ((probs.getD k []).getD e []).length =
          (([[[(1 : ℝ), 2]]] : Batch3 ℝ).getD e []).length) ∧
      (∀ e a, e < ([[[(1 : ℝ), 2]]] : Batch3 ℝ).length →
        a < (([[[(1 : ℝ), 2]]] : Batch3 ℝ).getD e []).length →
        (((probs.getD 0 []).getD e []).getD a []).length = 4 ∧
        (((probs.getD 0 []).getD e []).getD a []).sum = 1) ∧
      (∀ e a, e < ([[[(1 : ℝ), 2]]] : Batch3 ℝ).length →
        a < (([[[(1 : ℝ), 2]]] : Batch3 ℝ).getD e []).length →
        (((probs.getD 1 []).getD e []).getD a []).length = 3 ∧
        (((probs.getD 1 []).getD e []).getD a []).sum = 1) ∧
      vals.length = ([[[(1 : ℝ), 2]]] : Batch3 ℝ).length ∧
      (∀ e, (vals.getD e []).length =
        (([[[(1 : ℝ), 2]]] : Batch3 ℝ).getD e []).length)) :=
  ⟨⟨rfl,
    fun i o => ⟨by simp [mkLinearZeroR], by simp [mkLinearZeroR]⟩,
    rfl⟩,
   C7_forward_action_space c7EnvR [4] "p" (fun _ => [0]) false "first"
     mkLinearZeroR c7StateR [[[(1 : ℝ), 2]]] rfl
     (fun i o => ⟨by simp [mkLinearZeroR], by simp [mkLinearZeroR]⟩) rfl⟩

end WarpDrive
